import Mathlib

/-!
Verification of the bookkeeper repository: a shallow embedding, in Lean 4, of
the transaction repository (reader and writer over a Core-Data-style SQLite
schema) and the classification engine (rule matcher, LLM answer resolution,
web-search retry loop), together with theorems settling the frozen claims.

Modelling conventions:
* SQLite tables are lists of row structures; a cursor `fetchone` is `List.find?`
  (first row in table order), `fetchall` is the whole filtered list.
* SQL `NULL` is `Option.none`; Python truthiness of a nullable numeric column
  (`if x:`) is `none ↦ false, some v ↦ v ≠ 0`.
* Machine floats holding whole-second timestamps and currency values are
  modelled as `Int` and `Rat` respectively.
* The local clock used by `datetime.fromtimestamp` and `datetime.timestamp` is
  modelled as a fixed UTC offset `off` in seconds; calendar dates are day
  numbers (days since the Unix epoch in local time), a faithful abstraction of
  `datetime.date` since day number and calendar triple are in bijection.
-/

namespace Bookkeeper

/-! ## Python string primitives used by the source -/

/-- Python `str.lower` on one character, over the ASCII range the rule table
and category names use. -/
def pyLowerChar (c : Char) : Char :=
  if 65 ≤ c.toNat ∧ c.toNat ≤ 90 then Char.ofNat (c.toNat + 32) else c

/-- Python `str.lower` (ASCII case folding, as exercised by the source). -/
def pyLower (s : String) : String :=
  ⟨s.data.map pyLowerChar⟩

/-- Check whether the first list is an initial segment of the second. -/
def leadsWith : List Char → List Char → Bool
  | [], _ => true
  | _ :: _, [] => false
  | a :: as, b :: bs => a == b && leadsWith as bs

/-- Check whether `p` occurs as a contiguous sublist of `s`: the semantics of
the Python `in` operator on strings. -/
def hasSub (p : List Char) : List Char → Bool
  | [] => p.isEmpty
  | b :: rest => leadsWith p (b :: rest) || hasSub p rest

/-- Python `needle in hay` for strings. -/
def pyContains (needle hay : String) : Bool :=
  hasSub needle.data hay.data

/-! ## Writer database model (src/bookkeeper/writer.py)

The writer touches three tables: `ZTAG` (category labels), `ZTRANSACTION`
(only its `Z_PK` and `ZAMOUNT` columns are read), and
`ZCASHFLOWTRANSACTIONENTRY` (the linkage rows). -/

/-- A row of `ZTAG`: a category label. `ZUSERASSIGNABLE` is an integer flag
column, compared against `1` in the source query. -/
structure TagRow where
  z_pk : Int
  zname : String
  zuserassignable : Int
deriving DecidableEq, Repr

/-- A row of `ZTRANSACTION`, restricted to the columns the writer reads. -/
structure WTransactionRow where
  z_pk : Int
  zamount : Option Rat
deriving DecidableEq, Repr

/-- A row of `ZCASHFLOWTRANSACTIONENTRY` (a linkage row), with the columns the
writer inserts or updates. `zcategorytag` is `none` when the foreign key is
`NULL`. -/
structure CashflowEntry where
  z_pk : Int
  z_ent : Int
  z_opt : Int
  zparent : Int
  zamount : Option Rat
  zsequencenumber : Int
  zcategorytag : Option Int
deriving DecidableEq, Repr

/-- The database state seen by `QuickenWriter`. -/
structure WriterDB where
  ztag : List TagRow
  ztransaction : List WTransactionRow
  zcashflowtransactionentry : List CashflowEntry
deriving DecidableEq, Repr

/-- Embedding of `QuickenWriter._get_category_id`: the query
`SELECT Z_PK FROM ZTAG WHERE ZNAME = ? AND ZUSERASSIGNABLE = 1` followed by
`fetchone`. SQLite string equality is case sensitive, hence `==` on names. -/
def getCategoryId (db : WriterDB) (categoryName : String) : Option Int :=
  (db.ztag.find? (fun r => r.zname == categoryName && r.zuserassignable == 1)).map
    (fun r => r.z_pk)

/-- SQL `MAX` over a column: `NULL` on an empty table, the maximum otherwise. -/
def sqlMax : List Int → Option Int
  | [] => none
  | x :: xs =>
    some (match sqlMax xs with
          | none => x
          | some m => max x m)

/-- The fresh key `max_pk + 1` allocated by `_get_or_create_cashflow_entry`;
`max_pk` is `SELECT MAX(Z_PK) FROM ZCASHFLOWTRANSACTIONENTRY` with the Python
coercion `max_pk or 0` (both `NULL` and `0` become `0`). -/
def nextCashflowPk (db : WriterDB) : Int :=
  (sqlMax (db.zcashflowtransactionentry.map (fun e => e.z_pk))).getD 0 + 1

/-- Embedding of `QuickenWriter._get_or_create_cashflow_entry`: look up the
first linkage row with `ZPARENT = transaction_id`; if none exists, read the
transaction amount (`0` when the transaction row is absent, the possibly-NULL
column value when present), allocate `max_pk + 1`, and insert a row with
`Z_ENT = 80`, `Z_OPT = 1`, `ZSEQUENCENUMBER = 0` and a NULL category tag. -/
def getOrCreateCashflowEntry (db : WriterDB) (transactionId : Int) :
    Int × WriterDB :=
  match db.zcashflowtransactionentry.find? (fun e => e.zparent == transactionId) with
  | some e => (e.z_pk, db)
  | none =>
    let amount : Option Rat :=
      match db.ztransaction.find? (fun t => t.z_pk == transactionId) with
      | some t => t.zamount
      | none => some 0
    let newPk := nextCashflowPk db
    (newPk,
      { db with
          zcashflowtransactionentry :=
            db.zcashflowtransactionentry ++
              [⟨newPk, 80, 1, transactionId, amount, 0, none⟩] })

/-- One row image under
`UPDATE ZCASHFLOWTRANSACTIONENTRY SET ZCATEGORYTAG = ? WHERE Z_PK = ?`. -/
def setCategoryTagRow (categoryId pk : Int) (e : CashflowEntry) : CashflowEntry :=
  if e.z_pk == pk then { e with zcategorytag := some categoryId } else e

/-- The `UPDATE ... SET ZCATEGORYTAG = ? WHERE Z_PK = ?` statement applied to
the whole table. -/
def updateCategoryTag (db : WriterDB) (categoryId pk : Int) : WriterDB :=
  { db with
      zcashflowtransactionentry :=
        db.zcashflowtransactionentry.map (setCategoryTagRow categoryId pk) }

/-- Embedding of `QuickenWriter.update_category`: resolve the category name
(returning `false` with the database untouched when it does not resolve),
get or create the linkage row, set its category tag, return `true`. -/
def update_category (db : WriterDB) (transactionId : Int) (categoryName : String) :
    Bool × WriterDB :=
  match getCategoryId db categoryName with
  | none => (false, db)
  | some categoryId =>
    let r := getOrCreateCashflowEntry db transactionId
    (true, updateCategoryTag r.2 categoryId r.1)

/-- Embedding of `QuickenWriter.update_categories`: the batch loop over the
update mapping in insertion order, recording `false` and continuing when a
name does not resolve, otherwise applying the same get-or-create plus update
sequence as `update_category` on the evolving state. -/
def update_categories (db : WriterDB) :
    List (Int × String) → List (Int × Bool) × WriterDB
  | [] => ([], db)
  | (tid, name) :: rest =>
    match getCategoryId db name with
    | none =>
      let r := update_categories db rest
      ((tid, false) :: r.1, r.2)
    | some categoryId =>
      let g := getOrCreateCashflowEntry db tid
      let db1 := updateCategoryTag g.2 categoryId g.1
      let r := update_categories db1 rest
      ((tid, true) :: r.1, r.2)

/-! ## Reader model (src/bookkeeper/reader.py)

Calendar dates are local day numbers; `off` is the fixed local UTC offset in
seconds; timestamps are whole seconds. -/

/-- The Core Data reference offset: seconds between the Unix epoch and
2001-01-01T00:00:00 UTC (`CORE_DATA_EPOCH` in the source). -/
def CORE_DATA_EPOCH : Int := 978307200

/-- Embedding of `core_data_timestamp_to_date`: shift the Core Data timestamp
to a Unix timestamp, interpret it on the local clock (offset `off`), and take
the calendar day; `datetime.fromtimestamp(u).date()` is day number
`⌊(u + off) / 86400⌋`. -/
def core_data_timestamp_to_date (off : Int) (timestamp : Int) : Int :=
  (timestamp + CORE_DATA_EPOCH + off).fdiv 86400

/-- The lower query bound built in `read_transactions`:
`datetime.combine(start_date, datetime.min.time()).timestamp() - CORE_DATA_EPOCH`,
the Core Data timestamp of local midnight opening day `d`. -/
def startTimestamp (off d : Int) : Int :=
  d * 86400 - off - CORE_DATA_EPOCH

/-- The upper query bound built in `read_transactions`:
`datetime.combine(end_date, datetime.max.time()).timestamp() - CORE_DATA_EPOCH`,
the Core Data timestamp of the last whole second of day `d` in local time. -/
def endTimestamp (off d : Int) : Int :=
  d * 86400 + 86399 - off - CORE_DATA_EPOCH

/-- A row produced by the SELECT in `read_transactions` (transactions joined
with payees, categories and accounts); `NULL` columns are `none`. -/
structure TxRow where
  z_pk : Int
  zentereddate : Option Int
  zposteddate : Option Int
  zamount : Option Rat
  note : Option String
  reference : Option String
  check_number : Option String
  zaccount : Option Int
  payee_name : Option String
  category_name : Option String
  account_name : Option String
  ztypename : Option String
deriving DecidableEq, Repr

/-- Python truthiness of a nullable numeric column: `None` and `0` are falsy. -/
def truthyTs : Option Int → Bool
  | none => false
  | some v => v != 0

/-- The `WHERE` clause of `read_transactions` restricted to one row:
`ZAMOUNT IS NOT NULL`, the optional `ZTYPENAME IN (...)` filter, and the
optional `ZENTEREDDATE >= start` / `ZENTEREDDATE <= end` bounds. A `NULL`
entered date fails either bound, and a `NULL` type name fails `IN`, exactly as
in SQL three-valued logic. The type filter is skipped for both `None` and an
empty list, mirroring `if account_types:`. -/
def passesFilters (startTs endTs : Option Int) (accountTypes : Option (List String))
    (r : TxRow) : Bool :=
  r.zamount.isSome &&
  (match accountTypes with
   | none => true
   | some l =>
     if l.isEmpty then true
     else match r.ztypename with
          | none => false
          | some ty => l.contains ty) &&
  (match startTs with
   | none => true
   | some s =>
     match r.zentereddate with
     | none => false
     | some e => decide (s ≤ e)) &&
  (match endTs with
   | none => true
   | some t =>
     match r.zentereddate with
     | none => false
     | some e => decide (e ≤ t))

/-- SQLite comparison order on a nullable integer column: `NULL` sorts below
every value. -/
def sqlLe : Option Int → Option Int → Prop
  | none, _ => True
  | some _, none => False
  | some x, some y => x ≤ y

instance : ∀ a b, Decidable (sqlLe a b)
  | none, _ => isTrue trivial
  | some _, none => isFalse (fun h => h)
  | some x, some y => inferInstanceAs (Decidable (x ≤ y))

/-- The descending comparison realising `ORDER BY t.ZENTEREDDATE DESC`:
row `a` precedes row `b` when the entered date of `b` is at most that of `a`,
so `NULL` entered dates come last. -/
def enteredGe (a b : TxRow) : Prop :=
  sqlLe b.zentereddate a.zentereddate

instance : DecidableRel enteredGe := fun a b =>
  inferInstanceAs (Decidable (sqlLe b.zentereddate a.zentereddate))

theorem sqlLe_total : ∀ a b, sqlLe a b ∨ sqlLe b a
  | none, _ => Or.inl trivial
  | some _, none => Or.inr trivial
  | some x, some y => Int.le_total x y

theorem sqlLe_trans : ∀ {a b c}, sqlLe a b → sqlLe b c → sqlLe a c
  | none, _, _, _, _ => trivial
  | some _, none, _, h, _ => h.elim
  | some _, some _, none, _, h => h.elim
  | some _, some _, some _, h1, h2 => le_trans h1 h2

instance : IsTotal TxRow enteredGe :=
  ⟨fun a b => sqlLe_total b.zentereddate a.zentereddate⟩

instance : IsTrans TxRow enteredGe :=
  ⟨fun _ _ _ h1 h2 => sqlLe_trans h2 h1⟩

/-- The full query of `read_transactions`: filter by the WHERE clause, then
order by entered date descending. SQL promises a permutation of the filtered
rows sorted by the ORDER BY key; insertion sort realises that here. -/
def sortedQuery (startTs endTs : Option Int) (accountTypes : Option (List String))
    (rows : List TxRow) : List TxRow :=
  List.insertionSort enteredGe (rows.filter (passesFilters startTs endTs accountTypes))

/-- Embedding of the domain object built per row in `read_transactions`. The
`raw` field mirrors `raw_data=dict(row)`. -/
structure Transaction where
  id : Int
  date : Int
  payee : String
  amount : Option Rat
  category : Option String
  memo : Option String
  account_id : Option Int
  reference : Option String
  check_number : Option String
  raw : TxRow
deriving DecidableEq, Repr

/-- The effective timestamp chosen per row:
`row["posted_date"] if row["posted_date"] else row["entered_date"]`. -/
def effTs (r : TxRow) : Option Int :=
  if truthyTs r.zposteddate then r.zposteddate else r.zentereddate

/-- Row-to-domain conversion from the loop body of `read_transactions`:
posted-preferred timestamp, falling back to `today` when that timestamp is
falsy, and `payee_name or "Unknown"` (the empty string is falsy too). -/
def mkTransaction (off today : Int) (r : TxRow) : Transaction :=
  { id := r.z_pk
    date :=
      if truthyTs (effTs r) then core_data_timestamp_to_date off ((effTs r).getD 0)
      else today
    payee :=
      match r.payee_name with
      | none => "Unknown"
      | some s => if s.isEmpty then "Unknown" else s
    amount := r.zamount
    category := r.category_name
    memo := r.note
    account_id := r.zaccount
    reference := r.reference
    check_number := r.check_number
    raw := r }

/-- Embedding of `QuickenReader.read_transactions`: build the optional
timestamp bounds from the optional day-number bounds, run the query, convert
each row. -/
def read_transactions (off today : Int) (rows : List TxRow)
    (startDate endDate : Option Int) (accountTypes : Option (List String)) :
    List Transaction :=
  let startTs := startDate.map (startTimestamp off)
  let endTs := endDate.map (endTimestamp off)
  (sortedQuery startTs endTs accountTypes rows).map (mkTransaction off today)

/-! ## Classifier model (src/bookkeeper/classifier.py) -/

/-- Embedding of `TransactionClassifier._load_default_rules`: the pattern
table as an ordered list of `(payee substring pattern, category)` pairs, in
the exact order of the source dict literal (Python dicts preserve insertion
order, and all keys are distinct). -/
def defaultRules : List (String × String) :=
  [("whole foods", "Groceries"),
   ("trader joe", "Groceries"),
   ("safeway", "Groceries"),
   ("stop & shop", "Groceries"),
   ("costco", "Groceries"),
   ("target", "Groceries"),
   ("walmart", "Groceries"),
   ("wegmans", "Groceries"),
   ("kroger", "Groceries"),
   ("publix", "Groceries"),
   ("shell", "Gas & Fuel"),
   ("chevron", "Gas & Fuel"),
   ("exxon", "Gas & Fuel"),
   ("mobil", "Gas & Fuel"),
   ("bp ", "Gas & Fuel"),
   ("texaco", "Gas & Fuel"),
   ("arco", "Gas & Fuel"),
   ("starbucks", "Coffee Shops"),
   ("dunkin", "Coffee Shops"),
   ("mcdonald", "Fast Food"),
   ("burger king", "Fast Food"),
   ("wendy", "Fast Food"),
   ("taco bell", "Fast Food"),
   ("kfc", "Fast Food"),
   ("chick-fil-a", "Fast Food"),
   ("five guys", "Fast Food"),
   ("shake shack", "Fast Food"),
   ("chipotle", "Restaurants"),
   ("panera", "Restaurants"),
   ("subway", "Fast Food"),
   ("uber", "Auto & Transport"),
   ("lyft", "Auto & Transport"),
   ("mta", "Public Transportation"),
   ("netflix", "Entertainment"),
   ("hulu", "Entertainment"),
   ("spotify", "Entertainment"),
   ("patreon", "Entertainment"),
   ("substack", "Books"),
   ("parentdata", "Books"),
   ("amazon", "Shopping"),
   ("apple.com", "Electronics & Software"),
   ("peloton", "Gym"),
   ("ups", "Shopping"),
   ("usps", "Shopping"),
   ("federal express", "Shopping"),
   ("fedex", "Shopping"),
   ("united airlines", "Air Travel"),
   ("jetblue", "Air Travel"),
   ("alaska air", "Air Travel"),
   ("southwest", "Air Travel"),
   ("delta", "Air Travel"),
   ("american airlines", "Air Travel"),
   ("souvenir", "Coffee Shops"),
   ("barneys gourmet", "Restaurants"),
   ("rick and ann", "Restaurants"),
   ("timeless coff", "Coffee Shops"),
   ("la farine", "Restaurants"),
   ("zipcar", "Auto & Transport")]

/-- Embedding of `TransactionClassifier._apply_rules`: lower-case the payee,
scan the rule table in order, return the category of the first pattern that
occurs as a substring, `none` when no pattern matches. -/
def applyRules (rules : List (String × String)) (t : Transaction) : Option String :=
  (rules.find? (fun pc => pyContains pc.1 (pyLower t.payee))).map (fun pc => pc.2)

/-- Signature of a classification path: the optional statistical model hook
(`self.ml_model`, `None` in the source, marked TODO) and the LLM path
(`self._classify_with_llm`, taken only when `self.client` is set) both map a
transaction and the valid categories to `(category, confidence)`. The writer
passes these as explicit arguments so the priority policy can be stated over
arbitrary instantiations of the hooks. -/
def ClassifyPath : Type :=
  Transaction → List String → String × Rat

/-- The statistical-model step of `classify`: run the model only when one is
present, keep its answer only when its confidence exceeds `0.8`. -/
def mlQualified (mlModel : Option ClassifyPath) (t : Transaction)
    (availableCategories : List String) : Option (String × Rat) :=
  match mlModel with
  | none => none
  | some ml =>
    let r := ml t availableCategories
    if r.2 > 0.8 then some r else none

/-- Python truthiness of an optional string: `None` and the empty string are
both falsy. -/
def truthyStr : Option String → Bool
  | none => false
  | some s => !s.isEmpty

/-- Python `x or dflt` on an optional string: the value when truthy, the
default when the value is `None` or empty. -/
def pyStrOr (x : Option String) (dflt : String) : String :=
  if truthyStr x then x.getD dflt else dflt

/-- Embedding of `TransactionClassifier.classify`: the rule suggestion is
taken first, behind the truthiness test `if rule_suggestion:` (so `None` and
an empty category both fall through), at confidence `0.95`; then the
qualifying statistical model; then the LLM path when a client is configured;
else `transaction.category or "Uncategorized"` at `0.0`, where an absent or
empty existing category falls back to the sentinel. -/
def classify (rules : List (String × String)) (mlModel : Option ClassifyPath)
    (client : Option ClassifyPath) (t : Transaction)
    (availableCategories : List String) : String × Rat :=
  let ruleSuggestion := applyRules rules t
  if truthyStr ruleSuggestion then (ruleSuggestion.getD "", 0.95)
  else
    match mlQualified mlModel t availableCategories with
    | some r => r
    | none =>
      match client with
      | some llm => llm t availableCategories
      | none => (pyStrOr t.category "Uncategorized", 0)

/-- Embedding of the final-answer handling of
`TransactionClassifier._classify_with_llm` (lines 391-425): `parsed` is the
outcome of extracting and JSON-parsing the final model text, already reduced
to the stripped category field and numeric confidence; `none` covers every
failure the surrounding handlers absorb (malformed structure, JSON or float
parse failure, transport failure). Exact match against the valid categories
first, then the first case-insensitive match returning the listed spelling,
else the sentinel. Totality of this function is the no-exception boundary. -/
def resolveLlmAnswer (availableCategories : List String)
    (parsed : Option (String × Rat)) : String × Rat :=
  match parsed with
  | none => ("Uncategorized", 0)
  | some (category, confidence) =>
    if availableCategories.contains category then (category, confidence)
    else
      match availableCategories.find? (fun cat => pyLower cat == pyLower category) with
      | some cat => (cat, confidence)
      | none => ("Uncategorized", 0)

/-! ## Web-search retry loop (`TransactionClassifier._web_search`)

The network is abstracted as the list of per-attempt outcomes: attempt `i`
either returns a result string (the formatted summary, or the
no-results notice, both built inside the `try` block) or raises an error whose
string form is recorded. The loop body is otherwise the source control flow:
return on success; on failure remember the error and, when further attempts
remain (`attempt < max_retries - 1`), sleep `0.5 * 2 ** attempt` seconds. The
second component collects the sleep durations performed. -/

/-- One pass of the retry loop of `_web_search`, recursing over the remaining
attempt outcomes. -/
def wsLoop (maxRetries : Nat) : Nat → Option String →
    List (Except String String) → String × List Rat
  | _, lastError, [] =>
    ("Web search failed after " ++ toString maxRetries ++ " attempts: " ++
      lastError.getD "None", [])
  | _, _, Except.ok result :: _ => (result, [])
  | attempt, _, Except.error e :: rest =>
    let r := wsLoop maxRetries (attempt + 1) (some e) rest
    if attempt < maxRetries - 1 then (r.1, (0.5 : Rat) * 2 ^ attempt :: r.2)
    else (r.1, r.2)

/-- Embedding of `TransactionClassifier._web_search` at its default
`max_retries = 3`: at most three attempts are consulted. -/
def webSearch (outcomes : List (Except String String)) : String × List Rat :=
  wsLoop 3 0 none (outcomes.take 3)

/-! ## Concrete fixtures used by witnesses and counterexamples -/

/-- A small writer database: one user-assignable category (`Groceries`, key
`7`), one non-assignable label, two transactions, and one linkage row per
transaction, both with a NULL category tag. -/
def exWriterDB : WriterDB :=
  { ztag := [⟨7, "Groceries", 1⟩, ⟨8, "Internal", 0⟩],
    ztransaction := [⟨1, some 5⟩, ⟨2, some 3⟩],
    zcashflowtransactionentry :=
      [⟨10, 80, 1, 1, some 5, 0, none⟩, ⟨11, 80, 1, 2, some 3, 0, none⟩] }

/-- The expected state after categorising transaction `1` as `Groceries` in
`exWriterDB`: only the linkage row of transaction `1` changes. -/
def exWriterDBUpdated : WriterDB :=
  { exWriterDB with
      zcashflowtransactionentry :=
        [⟨10, 80, 1, 1, some 5, 0, some 7⟩, ⟨11, 80, 1, 2, some 3, 0, none⟩] }

/-- An all-NULL joined row, the base for row fixtures. -/
def emptyTxRow : TxRow :=
  { z_pk := 0, zentereddate := none, zposteddate := none, zamount := none,
    note := none, reference := none, check_number := none, zaccount := none,
    payee_name := none, category_name := none, account_name := none,
    ztypename := none }

/-- A minimal transaction fixture carrying only a payee, for exercising the
rule matcher and the orchestrator. -/
def txWithPayee (payee : String) : Transaction :=
  { id := 0, date := 0, payee := payee, amount := none, category := none,
    memo := none, account_id := none, reference := none, check_number := none,
    raw := emptyTxRow }

/-! ## Claim theorems -/

/-- C5: converting a calendar date `d` to the start-of-day Core Data timestamp
used as the lower query bound and mapping it back through
`core_data_timestamp_to_date` recovers `d`, for every day number `d` and every
fixed local offset `off`. -/
theorem epoch_roundtrip_start_of_day (off d : Int) :
    core_data_timestamp_to_date off (startTimestamp off d) = d := by
  unfold core_data_timestamp_to_date startTimestamp
  have h : d * 86400 - off - CORE_DATA_EPOCH + CORE_DATA_EPOCH + off = d * 86400 := by
    ring
  rw [h]
  exact Int.mul_fdiv_cancel d (by norm_num)

/-- C9: the web lookup makes at most three attempts; when all three fail it
sleeps `0.5` seconds after the first failure and `1.0` after the second
(exponential backoff starting at `0.5` and doubling), and returns the textual
failure notice built from the last error instead of raising; a successful
attempt returns its result immediately, performing no further attempts, as
shown by the arbitrary tail `rest` of never-consulted outcomes. -/
theorem web_search_retry_policy (e1 e2 e3 result : String)
    (rest : List (Except String String)) :
    webSearch [Except.error e1, Except.error e2, Except.error e3]
      = ("Web search failed after 3 attempts: " ++ e3, [0.5, 1])
    ∧ webSearch (Except.error e1 :: Except.error e2 :: Except.error e3 :: rest)
      = webSearch [Except.error e1, Except.error e2, Except.error e3]
    ∧ webSearch (Except.ok result :: rest) = (result, [])
    ∧ webSearch (Except.error e1 :: Except.ok result :: rest) = (result, [0.5]) := by
  refine ⟨?_, ?_, ?_, ?_⟩
  · show ("Web search failed after " ++ toString 3 ++ " attempts: " ++ e3,
      [(0.5 : Rat) * 2 ^ 0, (0.5 : Rat) * 2 ^ 1]) = _
    norm_num
    rfl
  · rfl
  · rfl
  · show (result, [(0.5 : Rat) * 2 ^ 0]) = _
    norm_num

/-- C8: the final-answer handling of the LLM classifier returns an exactly
matching category verbatim with its parsed confidence; with no exact match it
returns the first case-insensitively matching valid category in its listed
spelling, still with the parsed confidence; with no match at all it returns
the sentinel, and every absorbed failure (malformed response, parse failure,
transport failure, modelled as a missing parsed answer) also returns the
sentinel — the function is total, so nothing escapes the boundary. -/
theorem llm_answer_validation (availableCategories : List String)
    (exactCat iCat noCat canonical : String) (c1 c2 c3 : Rat)
    (h1 : availableCategories.contains exactCat = true)
    (h2 : availableCategories.contains iCat = false)
    (h3 : availableCategories.find? (fun cat => pyLower cat == pyLower iCat)
            = some canonical)
    (h4 : availableCategories.contains noCat = false)
    (h5 : availableCategories.find? (fun cat => pyLower cat == pyLower noCat)
            = none) :
    resolveLlmAnswer availableCategories (some (exactCat, c1)) = (exactCat, c1)
    ∧ resolveLlmAnswer availableCategories (some (iCat, c2)) = (canonical, c2)
    ∧ resolveLlmAnswer availableCategories (some (noCat, c3)) = ("Uncategorized", 0)
    ∧ resolveLlmAnswer availableCategories none = ("Uncategorized", 0) := by
  have m1 : exactCat ∈ availableCategories := by simpa using h1
  have m2 : iCat ∉ availableCategories := by simpa using h2
  have m4 : noCat ∉ availableCategories := by simpa using h4
  refine ⟨?_, ?_, ?_, rfl⟩ <;> simp [resolveLlmAnswer, m1, m2, m4, h3, h5]

/-- Witness for C8 on a concrete category list: exact, case-insensitive,
unmatched and failed answers behave as stated. -/
theorem llm_answer_validation_witness :
    resolveLlmAnswer ["Groceries", "Gas & Fuel"] (some ("Groceries", 0.9))
      = ("Groceries", 0.9)
    ∧ resolveLlmAnswer ["Groceries", "Gas & Fuel"] (some ("gas & fuel", 0.8))
      = ("Gas & Fuel", 0.8)
    ∧ resolveLlmAnswer ["Groceries", "Gas & Fuel"] (some ("Pets", 0.7))
      = ("Uncategorized", 0)
    ∧ resolveLlmAnswer ["Groceries", "Gas & Fuel"] none = ("Uncategorized", 0) :=
  llm_answer_validation ["Groceries", "Gas & Fuel"] "Groceries" "gas & fuel"
    "Pets" "Gas & Fuel" 0.9 0.8 0.7 (by decide) (by decide) (by decide)
    (by decide) (by decide)

/-- C7: the rule matcher lower-cases the payee and scans the table in order,
returning the category of the first pattern occurring as a substring: with no
earlier pattern matching, the first matching entry wins whatever follows it;
on the default table, payee `"SAFEWAY #1234"` yields `Groceries`, and payee
`"SHELL TARGET"`, matched by both `target ↦ Groceries` and
`shell ↦ Gas & Fuel`, yields the category of the earlier-listed `target`;
when no pattern matches the result is `none`. -/
theorem rule_matcher_first_match (pre post : List (String × String))
    (p c payee : String)
    (h1 : ∀ q ∈ pre, pyContains q.1 (pyLower payee) = false)
    (h2 : pyContains p (pyLower payee) = true) :
    applyRules (pre ++ (p, c) :: post) (txWithPayee payee) = some c
    ∧ applyRules defaultRules (txWithPayee "SAFEWAY #1234") = some "Groceries"
    ∧ applyRules defaultRules (txWithPayee "SHELL TARGET") = some "Groceries"
    ∧ (∀ rules t, (∀ q ∈ rules, pyContains q.1 (pyLower t.payee) = false) →
        applyRules rules t = none) := by
  refine ⟨?_, by decide, by decide, ?_⟩
  · unfold applyRules
    rw [List.find?_append]
    have hpre : pre.find?
        (fun pc => pyContains pc.1 (pyLower (txWithPayee payee).payee)) = none := by
      rw [List.find?_eq_none]
      intro q hq
      simp [txWithPayee, h1 q hq]
    rw [hpre]
    simp [txWithPayee, h2]
  · intro rules t hn
    unfold applyRules
    have : rules.find? (fun pc => pyContains pc.1 (pyLower t.payee)) = none := by
      rw [List.find?_eq_none]
      intro q hq
      simp [hn q hq]
    simp [this]

/-- Witness for C7: pattern `safeway` matches payee `SAFEWAY` in a singleton
table with no earlier entries. -/
theorem rule_matcher_first_match_witness :
    applyRules ([] ++ ("safeway", "Groceries") :: []) (txWithPayee "SAFEWAY")
      = some "Groceries"
    ∧ applyRules defaultRules (txWithPayee "SAFEWAY #1234") = some "Groceries"
    ∧ applyRules defaultRules (txWithPayee "SHELL TARGET") = some "Groceries"
    ∧ (∀ rules t, (∀ q ∈ rules, pyContains q.1 (pyLower t.payee) = false) →
        applyRules rules t = none) :=
  rule_matcher_first_match [] [] "safeway" "Groceries" "SAFEWAY"
    (by intro q hq; cases hq) (by decide)

/-- C6: the orchestrator is a strict priority chain: whenever a rule matches
with a non-empty category — and every category in the default table is
non-empty, as the last conjunct certifies, so every rule match in the shipped
program is of this form — `classify` returns that category at confidence
exactly `0.95`, and its result does not depend on the LLM client at all (so
the LLM path is never invoked); whenever no rule matches, the statistical
step does not qualify, and no client is configured, it returns
`transaction.category or "Uncategorized"` at confidence `0.0`: the existing
category, with the sentinel standing in when the transaction has none (an
absent or empty category field). -/
theorem classify_priority_chain (rules : List (String × String))
    (mlModel client : Option ClassifyPath) (t : Transaction)
    (availableCategories : List String) (c : String)
    (h : applyRules rules t = some c) (hc : c.isEmpty = false) :
    classify rules mlModel client t availableCategories = (c, 0.95)
    ∧ (∀ otherClient, classify rules mlModel otherClient t availableCategories
        = classify rules mlModel none t availableCategories)
    ∧ (∀ t2 cats2, applyRules rules t2 = none →
        mlQualified mlModel t2 cats2 = none →
        classify rules mlModel none t2 cats2
          = (pyStrOr t2.category "Uncategorized", 0))
    ∧ (∀ q ∈ defaultRules, q.2.isEmpty = false) := by
  refine ⟨by simp [classify, h, truthyStr, hc],
    fun oc => by simp [classify, h, truthyStr, hc], ?_, by decide⟩
  intro t2 cats2 h2 h3
  simp [classify, h2, truthyStr, h3]

/-- Witness for C6: on the default rules with no model and no client,
`SAFEWAY #1234` classifies as the non-empty `Groceries` at `0.95`,
independently of any client. -/
theorem classify_priority_chain_witness :
    classify defaultRules none none (txWithPayee "SAFEWAY #1234") ["Groceries"]
      = ("Groceries", 0.95)
    ∧ (∀ otherClient,
        classify defaultRules none otherClient (txWithPayee "SAFEWAY #1234")
          ["Groceries"]
        = classify defaultRules none none (txWithPayee "SAFEWAY #1234")
            ["Groceries"])
    ∧ (∀ t2 cats2, applyRules defaultRules t2 = none →
        mlQualified none t2 cats2 = none →
        classify defaultRules none none t2 cats2
          = (pyStrOr t2.category "Uncategorized", 0))
    ∧ (∀ q ∈ defaultRules, q.2.isEmpty = false) :=
  classify_priority_chain defaultRules none none (txWithPayee "SAFEWAY #1234")
    ["Groceries"] "Groceries" (by decide) (by decide)

/-! ## Writer lemmas -/

theorem getCategoryId_eq_none_iff (db : WriterDB) (name : String) :
    getCategoryId db name = none
      ↔ ∀ r ∈ db.ztag, ¬(r.zname = name ∧ r.zuserassignable = 1) := by
  simp [getCategoryId, List.find?_eq_none]

theorem getCategoryId_isSome_iff (db : WriterDB) (name : String) :
    (getCategoryId db name).isSome
      ↔ ∃ r ∈ db.ztag, r.zname = name ∧ r.zuserassignable = 1 := by
  simp [getCategoryId, List.find?_isSome]

theorem sqlMax_eq_none_iff (l : List Int) : sqlMax l = none ↔ l = [] := by
  cases l <;> simp [sqlMax]

theorem le_sqlMax_getD {x : Int} {l : List Int} (hx : x ∈ l) :
    x ≤ (sqlMax l).getD 0 := by
  induction l with
  | nil => cases hx
  | cons a l ih =>
    rcases List.mem_cons.mp hx with h | h
    · subst h
      cases hs : sqlMax l <;> simp [sqlMax, hs]
    · cases hs : sqlMax l with
      | none => exact absurd (List.eq_nil_iff_forall_not_mem.mp
          ((sqlMax_eq_none_iff l).mp hs) x) (by simp [h])
      | some m =>
        have := ih h
        rw [hs] at this
        simp only [sqlMax, hs, Option.getD_some]
        exact le_trans this (le_max_right a m)

theorem setCategoryTagRow_zparent (cid pk : Int) (e : CashflowEntry) :
    (setCategoryTagRow cid pk e).zparent = e.zparent := by
  unfold setCategoryTagRow; split <;> rfl

theorem setCategoryTagRow_z_pk (cid pk : Int) (e : CashflowEntry) :
    (setCategoryTagRow cid pk e).z_pk = e.z_pk := by
  unfold setCategoryTagRow; split <;> rfl

theorem setCategoryTagRow_idem (cid pk : Int) (e : CashflowEntry) :
    setCategoryTagRow cid pk (setCategoryTagRow cid pk e)
      = setCategoryTagRow cid pk e := by
  unfold setCategoryTagRow
  by_cases h : e.z_pk == pk <;> simp [h]

theorem find?_parent_map (cid pk tid : Int) (l : List CashflowEntry) :
    (l.map (setCategoryTagRow cid pk)).find? (fun e => e.zparent == tid)
      = (l.find? (fun e => e.zparent == tid)).map (setCategoryTagRow cid pk) := by
  rw [List.find?_map]
  have hp : ((fun e => e.zparent == tid) ∘ setCategoryTagRow cid pk)
      = (fun e : CashflowEntry => e.zparent == tid) := by
    funext e
    simp [Function.comp, setCategoryTagRow_zparent]
  rw [hp]

theorem map_setCategoryTagRow_idem (cid pk : Int) (l : List CashflowEntry) :
    (l.map (setCategoryTagRow cid pk)).map (setCategoryTagRow cid pk)
      = l.map (setCategoryTagRow cid pk) := by
  rw [List.map_map]
  exact List.map_congr_left (fun e _ => setCategoryTagRow_idem cid pk e)

theorem countP_parent_map (cid pk tid : Int) (l : List CashflowEntry) :
    (l.map (setCategoryTagRow cid pk)).countP (fun e => e.zparent == tid)
      = l.countP (fun e => e.zparent == tid) := by
  rw [List.countP_map]
  have hp : ((fun e => e.zparent == tid) ∘ setCategoryTagRow cid pk)
      = (fun e : CashflowEntry => e.zparent == tid) := by
    funext e
    simp [Function.comp, setCategoryTagRow_zparent]
  rw [hp]

/-- C4: when the category name has no case-sensitive exact match among the
user-assignable labels, `update_category` returns `false` and leaves the whole
database state unchanged (totality of the embedding is the no-exception
guarantee); when the name does resolve, it returns `true`. -/
theorem update_category_unknown_name (db : WriterDB) (tid : Int)
    (badName goodName : String)
    (h1 : ∀ r ∈ db.ztag, ¬(r.zname = badName ∧ r.zuserassignable = 1))
    (h2 : ∃ r ∈ db.ztag, r.zname = goodName ∧ r.zuserassignable = 1) :
    update_category db tid badName = (false, db)
    ∧ (update_category db tid goodName).1 = true := by
  constructor
  · have hb : getCategoryId db badName = none :=
      (getCategoryId_eq_none_iff db badName).mpr h1
    simp [update_category, hb]
  · have hg : (getCategoryId db goodName).isSome :=
      (getCategoryId_isSome_iff db goodName).mpr h2
    obtain ⟨cid, hcid⟩ := Option.isSome_iff_exists.mp hg
    simp [update_category, hcid]

/-- Witness for C4 on `exWriterDB`: `NoSuchCategory` is rejected with no state
change (and the non-assignable label `Internal` would be rejected the same
way), while `Groceries` succeeds. -/
theorem update_category_unknown_name_witness :
    update_category exWriterDB 1 "NoSuchCategory" = (false, exWriterDB)
    ∧ (update_category exWriterDB 1 "Groceries").1 = true :=
  update_category_unknown_name exWriterDB 1 "NoSuchCategory" "Groceries"
    (by decide) (by decide)

/-- C2: the batch writer records an unresolvable entry as `false` and moves on
to the remaining entries against the unchanged state, and on the concrete
batch `{1 ↦ Groceries, 2 ↦ NoSuchCategory}` over `exWriterDB` it returns
`{1 ↦ true, 2 ↦ false}` while modifying only the linkage row of
transaction `1`. -/
theorem update_categories_partial_failure (db : WriterDB) (tid : Int)
    (name : String) (rest : List (Int × String))
    (h : getCategoryId db name = none) :
    update_categories db ((tid, name) :: rest)
      = ((tid, false) :: (update_categories db rest).1,
          (update_categories db rest).2)
    ∧ update_categories exWriterDB [(1, "Groceries"), (2, "NoSuchCategory")]
      = ([(1, true), (2, false)], exWriterDBUpdated) := by
  constructor
  · simp [update_categories, h]
  · decide

/-- Witness for C2: the unresolvable entry `(2, NoSuchCategory)` heads a
batch over `exWriterDB`. -/
theorem update_categories_partial_failure_witness :
    update_categories exWriterDB [(2, "NoSuchCategory")]
      = ((2, false) :: (update_categories exWriterDB []).1,
          (update_categories exWriterDB []).2)
    ∧ update_categories exWriterDB [(1, "Groceries"), (2, "NoSuchCategory")]
      = ([(1, true), (2, false)], exWriterDBUpdated) :=
  update_categories_partial_failure exWriterDB 2 "NoSuchCategory" []
    (by decide)

/-- C10: for a transaction id absent from the transaction table (and with no
linkage row), `update_category` with a resolvable category still returns
`true`: it appends a fresh linkage row keyed `max Z_PK + 1` carrying amount
`0` and the resolved category tag — no existence check guards the synthesis. -/
theorem update_category_missing_transaction (db : WriterDB) (tid : Int)
    (name : String) (cid : Int)
    (h1 : getCategoryId db name = some cid)
    (h2 : db.ztransaction.find? (fun t => t.z_pk == tid) = none)
    (h3 : db.zcashflowtransactionentry.find? (fun e => e.zparent == tid) = none) :
    (update_category db tid name).1 = true
    ∧ (update_category db tid name).2.zcashflowtransactionentry
      = db.zcashflowtransactionentry ++
          [⟨nextCashflowPk db, 80, 1, tid, some 0, 0, some cid⟩] := by
  have hfresh : ∀ e ∈ db.zcashflowtransactionentry,
      (e.z_pk == nextCashflowPk db) = false := by
    intro e he
    have hle : e.z_pk ≤ (sqlMax (db.zcashflowtransactionentry.map
        (fun x => x.z_pk))).getD 0 :=
      le_sqlMax_getD (List.mem_map_of_mem (fun x => x.z_pk) he)
    have : e.z_pk ≠ nextCashflowPk db := by
      unfold nextCashflowPk
      omega
    simpa using this
  constructor
  · simp [update_category, h1, getOrCreateCashflowEntry, h3]
  · simp only [update_category, h1, getOrCreateCashflowEntry, h3, h2,
      updateCategoryTag, List.map_append]
    congr 1
    · calc db.zcashflowtransactionentry.map
            (setCategoryTagRow cid (nextCashflowPk db))
          = db.zcashflowtransactionentry.map id := by
            apply List.map_congr_left
            intro e he
            simp [setCategoryTagRow, hfresh e he]
        _ = db.zcashflowtransactionentry := List.map_id _
    · simp [setCategoryTagRow]

/-- Witness for C10: id `99` has no transaction row and no linkage row in
`exWriterDB`, yet categorisation as `Groceries` succeeds and appends the
synthesized row with key `12`, amount `0` and tag `7`. -/
theorem update_category_missing_transaction_witness :
    (update_category exWriterDB 99 "Groceries").1 = true
    ∧ (update_category exWriterDB 99 "Groceries").2.zcashflowtransactionentry
      = exWriterDB.zcashflowtransactionentry ++
          [⟨nextCashflowPk exWriterDB, 80, 1, 99, some 0, 0, some 7⟩] :=
  update_category_missing_transaction exWriterDB 99 "Groceries" 7
    (by decide) (by decide) (by decide)

theorem update_categories_countP_preserved (tid : Int)
    (updates : List (Int × String)) :
    ∀ db : WriterDB,
      0 < db.zcashflowtransactionentry.countP (fun e => e.zparent == tid) →
      (update_categories db updates).2.zcashflowtransactionentry.countP
          (fun e => e.zparent == tid)
        = db.zcashflowtransactionentry.countP (fun e => e.zparent == tid) := by
  induction updates with
  | nil => intro db _; rfl
  | cons u rest ih =>
    intro db hpos
    obtain ⟨tid2, name2⟩ := u
    cases hcat : getCategoryId db name2 with
    | none =>
      simp only [update_categories, hcat]
      exact ih db hpos
    | some cid =>
      cases hfind : db.zcashflowtransactionentry.find?
          (fun e => e.zparent == tid2) with
      | some e0 =>
        have hdb1 : (updateCategoryTag db cid e0.z_pk).zcashflowtransactionentry.countP
            (fun e => e.zparent == tid)
            = db.zcashflowtransactionentry.countP (fun e => e.zparent == tid) :=
          countP_parent_map cid e0.z_pk tid db.zcashflowtransactionentry
        simp only [update_categories, hcat, getOrCreateCashflowEntry, hfind]
        rw [ih _ (by rw [hdb1]; exact hpos), hdb1]
      | none =>
        have h0 : db.zcashflowtransactionentry.countP
            (fun e => e.zparent == tid2) = 0 := by
          rw [List.countP_eq_zero]
          intro e he
          simpa using List.find?_eq_none.mp hfind e he
        have hne : tid2 ≠ tid := by
          intro hEq
          rw [hEq] at h0
          omega
        have hrow : ∀ am : Option Rat,
            (updateCategoryTag
              { db with
                  zcashflowtransactionentry :=
                    db.zcashflowtransactionentry ++
                      [⟨nextCashflowPk db, 80, 1, tid2, am, 0, none⟩] }
              cid (nextCashflowPk db)).zcashflowtransactionentry.countP
                (fun e => e.zparent == tid)
            = db.zcashflowtransactionentry.countP (fun e => e.zparent == tid) := by
          intro am
          show ((db.zcashflowtransactionentry ++
              ([⟨nextCashflowPk db, 80, 1, tid2, am, 0, none⟩] :
                List CashflowEntry)).map
                (setCategoryTagRow cid (nextCashflowPk db))).countP
                  (fun e => e.zparent == tid) = _
          rw [countP_parent_map, List.countP_append]
          simp [List.countP_cons, hne]
        simp only [update_categories, hcat, getOrCreateCashflowEntry, hfind]
        rw [ih _ (by rw [hrow _]; exact hpos), hrow _]

/-- C1: for a transaction id that already has a linkage row, `update_category`
is idempotent as a state transformer (the second identical call returns the
same flag and the same database), never grows the linkage table (length is
preserved, so no second linkage row appears and the existing single row stays
single), preserves the number of linkage rows of that transaction, and every
`update_categories` batch likewise preserves that number. -/
theorem update_category_idempotent (db : WriterDB) (tid : Int) (name : String)
    (h : ∃ e ∈ db.zcashflowtransactionentry, e.zparent = tid) :
    update_category (update_category db tid name).2 tid name
      = update_category db tid name
    ∧ (update_category db tid name).2.zcashflowtransactionentry.length
      = db.zcashflowtransactionentry.length
    ∧ (update_category db tid name).2.zcashflowtransactionentry.countP
        (fun e => e.zparent == tid)
      = db.zcashflowtransactionentry.countP (fun e => e.zparent == tid)
    ∧ ∀ updates : List (Int × String),
        (update_categories db updates).2.zcashflowtransactionentry.countP
          (fun e => e.zparent == tid)
        = db.zcashflowtransactionentry.countP (fun e => e.zparent == tid) := by
  have hpos : 0 < db.zcashflowtransactionentry.countP
      (fun e => e.zparent == tid) := by
    rw [List.countP_pos_iff]
    obtain ⟨e, he, hp⟩ := h
    exact ⟨e, he, by simp [hp]⟩
  have hsome : (db.zcashflowtransactionentry.find?
      (fun e => e.zparent == tid)).isSome := by
    rw [List.find?_isSome]
    obtain ⟨e, he, hp⟩ := h
    exact ⟨e, he, by simp [hp]⟩
  obtain ⟨e0, hfind⟩ := Option.isSome_iff_exists.mp hsome
  have main : update_category (update_category db tid name).2 tid name
        = update_category db tid name
      ∧ (update_category db tid name).2.zcashflowtransactionentry.length
        = db.zcashflowtransactionentry.length
      ∧ (update_category db tid name).2.zcashflowtransactionentry.countP
          (fun e => e.zparent == tid)
        = db.zcashflowtransactionentry.countP (fun e => e.zparent == tid) := by
    cases hcat : getCategoryId db name with
    | none =>
      have hfalse : update_category db tid name = (false, db) := by
        simp [update_category, hcat]
      rw [hfalse]
      exact ⟨hfalse, rfl, rfl⟩
    | some cid =>
      have hstep : update_category db tid name
          = (true, updateCategoryTag db cid e0.z_pk) := by
        simp [update_category, hcat, getOrCreateCashflowEntry, hfind]
      have hfind1 : (updateCategoryTag db cid e0.z_pk).zcashflowtransactionentry.find?
          (fun e => e.zparent == tid)
          = some (setCategoryTagRow cid e0.z_pk e0) := by
        show (db.zcashflowtransactionentry.map
          (setCategoryTagRow cid e0.z_pk)).find? (fun e => e.zparent == tid) = _
        rw [find?_parent_map, hfind]
        rfl
      have hcat1 : getCategoryId (updateCategoryTag db cid e0.z_pk) name
          = some cid := hcat
      have hstep2 : update_category (updateCategoryTag db cid e0.z_pk) tid name
          = (true, updateCategoryTag (updateCategoryTag db cid e0.z_pk) cid
              (setCategoryTagRow cid e0.z_pk e0).z_pk) := by
        simp [update_category, hcat1, getOrCreateCashflowEntry, hfind1]
      have hidem : updateCategoryTag (updateCategoryTag db cid e0.z_pk) cid
            (setCategoryTagRow cid e0.z_pk e0).z_pk
          = updateCategoryTag db cid e0.z_pk := by
        rw [setCategoryTagRow_z_pk]
        simp only [updateCategoryTag]
        rw [map_setCategoryTagRow_idem]
      rw [hstep]
      refine ⟨by rw [hstep2, hidem], ?_, ?_⟩
      · show (db.zcashflowtransactionentry.map
          (setCategoryTagRow cid e0.z_pk)).length = _
        rw [List.length_map]
      · exact countP_parent_map cid e0.z_pk tid db.zcashflowtransactionentry
  exact ⟨main.1, main.2.1, main.2.2,
    fun updates => update_categories_countP_preserved tid updates db hpos⟩

/-- Witness for C1: transaction `1` already has a linkage row in
`exWriterDB`; categorising it as `Groceries` is idempotent and leaves one
linkage row for it. -/
theorem update_category_idempotent_witness :
    update_category (update_category exWriterDB 1 "Groceries").2 1 "Groceries"
      = update_category exWriterDB 1 "Groceries"
    ∧ (update_category exWriterDB 1 "Groceries").2.zcashflowtransactionentry.length
      = exWriterDB.zcashflowtransactionentry.length
    ∧ (update_category exWriterDB 1 "Groceries").2.zcashflowtransactionentry.countP
        (fun e => e.zparent == 1)
      = exWriterDB.zcashflowtransactionentry.countP (fun e => e.zparent == 1)
    ∧ ∀ updates : List (Int × String),
        (update_categories exWriterDB updates).2.zcashflowtransactionentry.countP
          (fun e => e.zparent == 1)
        = exWriterDB.zcashflowtransactionentry.countP (fun e => e.zparent == 1) :=
  update_category_idempotent exWriterDB 1 "Groceries" (by decide)

/-! ## Reader lemmas and the date-range claims -/

theorem passesFilters_date_bounds {s t : Int} {r : TxRow}
    (h : passesFilters (some s) (some t) none r = true) :
    r.zamount.isSome = true
    ∧ ∃ v, r.zentereddate = some v ∧ s ≤ v ∧ v ≤ t := by
  unfold passesFilters at h
  cases hz : r.zentereddate with
  | none => rw [hz] at h; simp at h
  | some v =>
    rw [hz] at h
    simp only [Bool.and_eq_true, decide_eq_true_eq] at h
    exact ⟨h.1.1.1, v, rfl, h.1.2, h.2⟩

theorem map_raw_mkTransaction (off today : Int) (l : List TxRow) :
    (l.map (mkTransaction off today)).map Transaction.raw = l := by
  rw [List.map_map]
  have hid : (Transaction.raw ∘ mkTransaction off today) = id := by
    funext r; rfl
  rw [hid, List.map_id]

/-- A row whose entered timestamp falls on local day `15` but whose posted
timestamp falls on local day `100` (offset `0`): the query keeps it for the
range `[10, 20]` because the filter reads `ZENTEREDDATE`, yet the effective
date attribute, built posted-preferred, is `100`. -/
def c3Row : TxRow :=
  { z_pk := 1, zentereddate := some (15 * 86400 - 978307200),
    zposteddate := some (100 * 86400 - 978307200), zamount := some 1,
    note := none, reference := none, check_number := none, zaccount := none,
    payee_name := none, category_name := none, account_name := none,
    ztypename := none }

/-- Counterexample to C3 as stated: with range `[10, 20]`, `read_transactions`
returns the `c3Row` transaction although its effective (posted-preferred) date
`100` lies outside `[10, 20]` — the SQL filter compares the entered timestamp,
not the effective date. -/
theorem read_transactions_effective_date_counterexample :
    ((read_transactions 0 0 [c3Row] (some 10) (some 20) none).map
        (fun tx => tx.date)) = [100]
    ∧ ¬((10 : Int) ≤ 100 ∧ (100 : Int) ≤ 20) := by
  constructor
  · decide
  · decide

/-- Amendment of C3: for every closed day range `[a, b]`, `read_transactions`
returns exactly those rows with non-NULL amount whose ENTERED timestamp lies
between the start-of-day bound of `a` and the end-of-day bound of `b`
(inclusive; a NULL entered timestamp is excluded), ordered by entered
timestamp descending with NULLs last; each returned transaction carries the
effective date built posted-preferred (falling back to `today` when both
timestamps are falsy), which need not lie in `[a, b]`. -/
theorem read_transactions_entered_semantics (off today a b : Int)
    (rows : List TxRow) :
    ((read_transactions off today rows (some a) (some b) none).map
        Transaction.raw).Perm
      (rows.filter (passesFilters (some (startTimestamp off a))
        (some (endTimestamp off b)) none))
    ∧ List.Pairwise enteredGe
        ((read_transactions off today rows (some a) (some b) none).map
          Transaction.raw)
    ∧ ∀ tx ∈ read_transactions off today rows (some a) (some b) none,
        (tx.date = if truthyTs (effTs tx.raw)
            then core_data_timestamp_to_date off ((effTs tx.raw).getD 0)
            else today)
        ∧ tx.raw.zamount.isSome = true
        ∧ ∃ v, tx.raw.zentereddate = some v
            ∧ startTimestamp off a ≤ v ∧ v ≤ endTimestamp off b := by
  have hmap : (read_transactions off today rows (some a) (some b) none).map
        Transaction.raw
      = sortedQuery (some (startTimestamp off a)) (some (endTimestamp off b))
          none rows :=
    map_raw_mkTransaction off today _
  refine ⟨?_, ?_, ?_⟩
  · rw [hmap]
    exact List.perm_insertionSort enteredGe _
  · rw [hmap]
    exact List.sorted_insertionSort enteredGe _
  · intro tx htx
    have htx2 : tx ∈ (sortedQuery (some (startTimestamp off a))
        (some (endTimestamp off b)) none rows).map (mkTransaction off today) :=
      htx
    obtain ⟨r, hr, hre⟩ := List.mem_map.mp htx2
    have hrmem : r ∈ rows.filter (passesFilters (some (startTimestamp off a))
        (some (endTimestamp off b)) none) :=
      ((List.perm_insertionSort enteredGe _).mem_iff).mp hr
    have hpf : passesFilters (some (startTimestamp off a))
        (some (endTimestamp off b)) none r = true :=
      (List.mem_filter.mp hrmem).2
    obtain ⟨ha, v, hv, h1, h2⟩ := passesFilters_date_bounds hpf
    subst hre
    exact ⟨rfl, ha, v, hv, h1, h2⟩

end Bookkeeper
